import Mathlib

/-!
Shallow embedding of `colorlabel.go` (package `colorlabel`): a Fyne widget
holding text, a foreground and background color spec, a text scale, a text
style, a truncate flag and a last-seen key modifier.

Modelling conventions:
* Go `color.Color` concrete values (`color.NRGBA`, `color.Alpha16`,
  `color.Gray16`) become the inductive `GoColor`; `color.Transparent` is
  `Alpha16{A: 0}` in the Go standard library, hence `GoColor.alpha16 0`.
* The `any`-typed color-spec parameters become the inductive `ColorAny`,
  one constructor per dynamic type the code distinguishes; `other` stands
  for every unsupported dynamic type (tagged so distinct values exist).
* The process-wide theme (`theme.Color`) is an explicit parameter
  `θ : String → GoColor` (`fyne.ThemeColorName` is a string type).
* `float32` quantities (text scale, measured widths) are embedded as `ℚ`;
  the code only adds and compares them.
* Text measurement (`fyne.MeasureText(..).Width` at the fixed size/style of
  one `truncateText` call) is an explicit parameter `m : List Char → ℚ`;
  Go strings are converted to `[]rune` by the code, embedded as `List Char`.
* `Refresh()` only repaints; it is embedded as a ghost counter
  `refreshCount` so that "a refresh was / was not triggered" is observable.
-/

namespace Colorlabel

/-- Concrete colors: the `color.Color` values this code produces or stores. -/
inductive GoColor where
  | nrgba (r g b a : Nat)
  | alpha16 (a : Nat)
  | gray16 (y : Nat)
  deriving DecidableEq, Repr

/-- `color.Transparent` from Go's `image/color`: `Alpha16{A: 0}`. -/
def transparentColor : GoColor := GoColor.alpha16 0

/-- A value of Go static type `any` passed as a color spec, by dynamic type.
`other` covers every dynamic type not named in the code's type switches. -/
inductive ColorAny where
  | str (s : String)
  | themeName (s : String)
  | nrgba (r g b a : Nat)
  | alpha16 (a : Nat)
  | gray16 (y : Nat)
  | other (tag : Nat)
  deriving DecidableEq, Repr

/-- Dynamic types accepted by the type switches in `NewColorLabel`,
`SetTextColor` and `SetBackgroundColor` (everything except `other`). -/
def isSupported : ColorAny → Bool
  | ColorAny.other _ => false
  | _ => true

/-- `getColor` (colorlabel.go:78-92): resolve a color spec against the
current theme `θ`; `string` and `fyne.ThemeColorName` go through
`theme.Color`, raw pixel values are returned unchanged, anything else
resolves to `color.Transparent`. -/
def getColor (θ : String → GoColor) : ColorAny → GoColor
  | ColorAny.str s => θ s
  | ColorAny.themeName s => θ s
  | ColorAny.nrgba r g b a => GoColor.nrgba r g b a
  | ColorAny.alpha16 a => GoColor.alpha16 a
  | ColorAny.gray16 y => GoColor.gray16 y
  | ColorAny.other _ => transparentColor

/-- `fyne.TextStyle` restricted to the flags this widget can carry. -/
structure TextStyle where
  bold : Bool := false
  italic : Bool := false
  monospace : Bool := false
  deriving DecidableEq, Repr

instance : Inhabited TextStyle := ⟨{}⟩

/-- The `ColorLabel` struct (colorlabel.go:62-76), restricted to its own
state fields.  `refreshCount` is a ghost field counting `Refresh()` calls. -/
structure ColorLabel where
  fullText : String
  bgColor : ColorAny
  fgColor : ColorAny
  textScale : ℚ
  textStyle : TextStyle
  truncate : Bool
  lastKeyModifier : Nat
  refreshCount : Nat
  deriving DecidableEq, Repr

/-- The normalization switch applied to a text color in `NewColorLabel`
(lines 113-126) and `SetTextColor` (lines 283-296); `none` is the
`default:` arm (error / nil constructor result).

In the Go multi-type case `case fyne.ThemeColorName, string:` the bound
variable `c` keeps the interface type `any`, so `c == ""` compares dynamic
type and value: it is true only when the dynamic type is exactly `string`
and the value is empty.  A `fyne.ThemeColorName("")` therefore does NOT
match `""` and is stored as-is.  `theme.ColorNameForeground` is the
`fyne.ThemeColorName` constant `"foreground"`. -/
def normTextColor : ColorAny → Option ColorAny
  | ColorAny.str s =>
      some (if s = "" then ColorAny.themeName "foreground" else ColorAny.str s)
  | ColorAny.themeName s => some (ColorAny.themeName s)
  | ColorAny.nrgba r g b a => some (ColorAny.nrgba r g b a)
  | ColorAny.alpha16 a => some (ColorAny.alpha16 a)
  | ColorAny.gray16 y => some (ColorAny.gray16 y)
  | ColorAny.other _ => none

/-- The normalization switch applied to a background color in
`NewColorLabel` (lines 98-111) and `SetBackgroundColor` (lines 305-317):
identical to `normTextColor` except that an empty `string` becomes
`color.Transparent` (an `Alpha16{0}` value stored in the `any` field). -/
def normBackColor : ColorAny → Option ColorAny
  | ColorAny.str s =>
      some (if s = "" then ColorAny.alpha16 0 else ColorAny.str s)
  | ColorAny.themeName s => some (ColorAny.themeName s)
  | ColorAny.nrgba r g b a => some (ColorAny.nrgba r g b a)
  | ColorAny.alpha16 a => some (ColorAny.alpha16 a)
  | ColorAny.gray16 y => some (ColorAny.gray16 y)
  | ColorAny.other _ => none

/-- `NewColorLabel` (colorlabel.go:97-151): validate/normalize both color
specs (background first, then text; `nil` on any unsupported dynamic type),
clamp a non-positive scale to 1, and build the fully initialized label. -/
def NewColorLabel (s : String) (txtColor backColor : ColorAny) (tScale : ℚ) :
    Option ColorLabel := do
  let b ← normBackColor backColor
  let t ← normTextColor txtColor
  pure { fullText := s
         bgColor := b
         fgColor := t
         textScale := if tScale ≤ 0 then 1 else tScale
         textStyle := {}
         truncate := false
         lastKeyModifier := 0
         refreshCount := 0 }

/-- `SetText` (colorlabel.go:253-256). -/
def SetText (l : ColorLabel) (s : String) : ColorLabel :=
  { l with fullText := s, refreshCount := l.refreshCount + 1 }

/-- The error message of the setters' `default:` arm. -/
def invalidColorSpecMsg : String := "fyne.ThemeColorName or color.NRGBA required"

/-- `SetTextColor` (colorlabel.go:282-300): on an unsupported dynamic type
return the error and change nothing; otherwise store the normalized spec
and refresh.  First component is the Go `error` (`none` = `nil`). -/
def SetTextColor (l : ColorLabel) (txtColor : ColorAny) :
    Option String × ColorLabel :=
  match normTextColor txtColor with
  | none => (some invalidColorSpecMsg, l)
  | some c =>
      (none, { l with fgColor := c, refreshCount := l.refreshCount + 1 })

/-- `SetBackgroundColor` (colorlabel.go:304-322), same shape as
`SetTextColor`. -/
def SetBackgroundColor (l : ColorLabel) (backColor : ColorAny) :
    Option String × ColorLabel :=
  match normBackColor backColor with
  | none => (some invalidColorSpecMsg, l)
  | some c =>
      (none, { l with bgColor := c, refreshCount := l.refreshCount + 1 })

/-- `SetTextScale` (colorlabel.go:325-331): clamp non-positive to 1. -/
def SetTextScale (l : ColorLabel) (tScale : ℚ) : ColorLabel :=
  { l with textScale := if tScale ≤ 0 then 1 else tScale
           refreshCount := l.refreshCount + 1 }

/-- `SetTextStyle` (colorlabel.go:334-341): `nil` resets to the zero style. -/
def SetTextStyle (l : ColorLabel) (textStyle : Option TextStyle) : ColorLabel :=
  { l with textStyle := textStyle.getD {}
           refreshCount := l.refreshCount + 1 }

/-- `SetTextWithColor` (colorlabel.go:345-348): store the text, then call
`SetTextColor`, discarding its error (the method itself returns nothing). -/
def SetTextWithColor (l : ColorLabel) (txt : String) (txtColor : ColorAny) :
    ColorLabel :=
  (SetTextColor { l with fullText := txt } txtColor).2

/-- `SetTruncate` (colorlabel.go:350-353). -/
def SetTruncate (l : ColorLabel) (tr : Bool) : ColorLabel :=
  { l with truncate := tr, refreshCount := l.refreshCount + 1 }

/-- `MouseUp` (colorlabel.go:242-244): records the event's key modifier. -/
def MouseUp (l : ColorLabel) (modifier : Nat) : ColorLabel :=
  { l with lastKeyModifier := modifier }

/-- `GetLastKeyModifier` (colorlabel.go:248-250). -/
def GetLastKeyModifier (l : ColorLabel) : Nat := l.lastKeyModifier

/-- The ellipsis glyph `"…"` used by `truncateText`, as its single rune. -/
def ellipsisRune : Char := '…'

/-- The trimming loop of `truncateText` (colorlabel.go:271-277): while the
rune slice is non-empty, drop the last rune and return it plus the ellipsis
as soon as the measured width of slice-plus-ellipsis fits; if the loop
exhausts the slice, return the bare ellipsis. -/
def truncLoop (m : List Char → ℚ) (ellW maxW : ℚ) (r : List Char) :
    List Char :=
  if h : r = [] then [ellipsisRune]
  else if m r.dropLast + ellW ≤ maxW then r.dropLast ++ [ellipsisRune]
  else truncLoop m ellW maxW r.dropLast
termination_by r.length
decreasing_by
  simp only [List.length_dropLast]
  exact Nat.sub_lt (List.length_pos.mpr h) Nat.one_pos

/-- `truncateText` (colorlabel.go:258-278): identity unless `l.truncate`;
otherwise subtract `theme.Padding() * 2` from the width, measure the full
text, return it when it fits, else run the trimming loop.  The truncate
flag, the padding, the measurement function and the text (as runes) are
explicit parameters here. -/
def truncateText (truncate : Bool) (m : List Char → ℚ) (pad : ℚ)
    (s : List Char) (maxWidth : ℚ) : List Char :=
  if truncate = false then s
  else
    let maxW := maxWidth - pad * 2
    let ellW := m [ellipsisRune]
    if m s ≤ maxW then s
    else truncLoop m ellW maxW s

/-- Behaviour of the trimming loop on any rune slice `r`: either it returns
the longest strict initial segment (by dropped trailing runes) that fits
together with the ellipsis, or no initial segment of length `< r.length`
fits and it returns the bare ellipsis. -/
lemma truncLoop_cases (m : List Char → ℚ) (ellW maxW : ℚ) (r : List Char) :
    (∃ k, k < r.length ∧
        truncLoop m ellW maxW r = r.take k ++ [ellipsisRune] ∧
        m (r.take k) + ellW ≤ maxW ∧
        ∀ j, k < j → j < r.length → maxW < m (r.take j) + ellW) ∨
    (truncLoop m ellW maxW r = [ellipsisRune] ∧
        ∀ k, k < r.length → maxW < m (r.take k) + ellW) := by
  induction r using List.reverseRecOn with
  | nil =>
      right
      constructor
      · simp [truncLoop]
      · intro k hk
        simp at hk
  | append_singleton l a ih =>
      have hne : l ++ [a] ≠ [] := by simp
      have hdrop : (l ++ [a]).dropLast = l := List.dropLast_concat
      have hlen : (l ++ [a]).length = l.length + 1 := by simp
      by_cases hfit : m l + ellW ≤ maxW
      · left
        refine ⟨l.length, ?_, ?_, ?_, ?_⟩
        · omega
        · rw [truncLoop, dif_neg hne, hdrop, if_pos hfit, List.take_left]
        · rw [List.take_left]
          exact hfit
        · intro j hj hj'
          omega
      · have hstep : truncLoop m ellW maxW (l ++ [a]) = truncLoop m ellW maxW l := by
          rw [truncLoop, dif_neg hne, hdrop, if_neg hfit]
        have hlast : maxW < m ((l ++ [a]).take l.length) + ellW := by
          rw [List.take_left]
          exact lt_of_not_le hfit
        rcases ih with ⟨k, hk, heq, hle, hmax⟩ | ⟨heq, hall⟩
        · left
          have hk' : k ≤ l.length := Nat.le_of_lt hk
          refine ⟨k, ?_, ?_, ?_, ?_⟩
          · omega
          · rw [hstep, heq, List.take_append_of_le_length hk']
          · rwa [List.take_append_of_le_length hk']
          · intro j hj hj'
            rcases Nat.lt_or_ge j l.length with hjl | hjl
            · rw [List.take_append_of_le_length (Nat.le_of_lt hjl)]
              exact hmax j hj hjl
            · have : j = l.length := by omega
              subst this
              exact hlast
        · right
          constructor
          · rw [hstep, heq]
          · intro k hk
            rcases Nat.lt_or_ge k l.length with hkl | hkl
            · rw [List.take_append_of_le_length (Nat.le_of_lt hkl)]
              exact hall k hkl
            · have : k = l.length := by omega
              subst this
              exact hlast

/-- C1: with truncation on and text wider than the available width
(`maxWidth` minus twice the padding), `truncateText` returns either a
strict initial segment of `s` (drop of trailing runes, `s.take k` with
`k < s.length`) followed by the single ellipsis rune — the longest such
segment whose measured width plus the measured ellipsis width fits the
available width — or the bare ellipsis when no segment of length
`< s.length` (the empty one included) plus the ellipsis fits. -/
theorem truncateText_overflow (m : List Char → ℚ) (pad maxWidth : ℚ)
    (s : List Char) (h : maxWidth - pad * 2 < m s) :
    (∃ k, k < s.length ∧
        truncateText true m pad s maxWidth = s.take k ++ [ellipsisRune] ∧
        m (s.take k) + m [ellipsisRune] ≤ maxWidth - pad * 2 ∧
        ∀ j, k < j → j < s.length →
          maxWidth - pad * 2 < m (s.take j) + m [ellipsisRune]) ∨
    (truncateText true m pad s maxWidth = [ellipsisRune] ∧
        ∀ k, k < s.length →
          maxWidth - pad * 2 < m (s.take k) + m [ellipsisRune]) := by
  have hno : ¬ (m s ≤ maxWidth - pad * 2) := not_le.mpr h
  have hgo : truncateText true m pad s maxWidth =
      truncLoop m (m [ellipsisRune]) (maxWidth - pad * 2) s := by
    simp [truncateText, hno]
  rw [hgo]
  exact truncLoop_cases m (m [ellipsisRune]) (maxWidth - pad * 2) s

/-- C1 witness: a concrete overflowing input (each rune one unit wide,
padding 1, width 6, a seven-rune text). -/
theorem truncateText_overflow_witness :
    ((6 : ℚ) - 1 * 2 <
        (fun xs : List Char => (xs.length : ℚ)) ['a','b','c','d','e','f','g']) ∧
    ((∃ k, k < (['a','b','c','d','e','f','g'] : List Char).length ∧
        truncateText true (fun xs : List Char => (xs.length : ℚ)) 1
            ['a','b','c','d','e','f','g'] 6 =
          (['a','b','c','d','e','f','g'] : List Char).take k ++ [ellipsisRune] ∧
        (fun xs : List Char => (xs.length : ℚ))
            ((['a','b','c','d','e','f','g'] : List Char).take k) +
          (fun xs : List Char => (xs.length : ℚ)) [ellipsisRune] ≤ (6 : ℚ) - 1 * 2 ∧
        ∀ j, k < j → j < (['a','b','c','d','e','f','g'] : List Char).length →
          (6 : ℚ) - 1 * 2 <
            (fun xs : List Char => (xs.length : ℚ))
                ((['a','b','c','d','e','f','g'] : List Char).take j) +
              (fun xs : List Char => (xs.length : ℚ)) [ellipsisRune]) ∨
      (truncateText true (fun xs : List Char => (xs.length : ℚ)) 1
            ['a','b','c','d','e','f','g'] 6 = [ellipsisRune] ∧
        ∀ k, k < (['a','b','c','d','e','f','g'] : List Char).length →
          (6 : ℚ) - 1 * 2 <
            (fun xs : List Char => (xs.length : ℚ))
                ((['a','b','c','d','e','f','g'] : List Char).take k) +
              (fun xs : List Char => (xs.length : ℚ)) [ellipsisRune])) := by
  have h : (6 : ℚ) - 1 * 2 <
      (fun xs : List Char => (xs.length : ℚ)) ['a','b','c','d','e','f','g'] := by
    norm_num
  exact ⟨h, truncateText_overflow (fun xs : List Char => (xs.length : ℚ)) 1 6
    ['a','b','c','d','e','f','g'] h⟩

/-- C8: with truncation on, a text whose measured width fits the available
width (`maxWidth` minus twice the padding) is returned unchanged by
`truncateText`; in particular re-truncating a fitting truncation result is
the identity. -/
theorem truncateText_fits (m : List Char → ℚ) (pad maxWidth : ℚ)
    (s : List Char) (h : m s ≤ maxWidth - pad * 2) :
    truncateText true m pad s maxWidth = s := by
  simp [truncateText, h]

/-- C8 witness: a concrete fitting input (each rune one unit wide, padding
1, width 6, a two-rune text). -/
theorem truncateText_fits_witness :
    ((fun xs : List Char => (xs.length : ℚ)) ['h','i'] ≤ (6 : ℚ) - 1 * 2) ∧
    truncateText true (fun xs : List Char => (xs.length : ℚ)) 1 ['h','i'] 6 =
      ['h','i'] := by
  have h : (fun xs : List Char => (xs.length : ℚ)) ['h','i'] ≤ (6 : ℚ) - 1 * 2 := by
    norm_num
  exact ⟨h, truncateText_fits (fun xs : List Char => (xs.length : ℚ)) 1 6 ['h','i'] h⟩

/-- A concrete label as built by `NewColorLabel "Hallo" red transparent 1`
(red text on transparent background), used to instantiate witnesses. -/
def sampleLabel : ColorLabel :=
  { fullText := "Hallo"
    bgColor := ColorAny.alpha16 0
    fgColor := ColorAny.nrgba 255 0 0 255
    textScale := 1
    textStyle := {}
    truncate := false
    lastKeyModifier := 0
    refreshCount := 0 }

/-- A normalization switch succeeds exactly on the supported dynamic types. -/
lemma normTextColor_isSome (c : ColorAny) :
    (normTextColor c).isSome = isSupported c := by
  cases c <;> simp [normTextColor, isSupported]

lemma normBackColor_isSome (c : ColorAny) :
    (normBackColor c).isSome = isSupported c := by
  cases c <;> simp [normBackColor, isSupported]

/-- C2: an argument of unsupported dynamic type makes `SetTextColor` and
`SetBackgroundColor` return the (non-nil) `InvalidColorSpec` error with the
whole label state exactly as before the call, and an argument of any
supported dynamic type makes them return `nil`. -/
theorem setColor_invalid_spec_no_op (l : ColorLabel) (c : ColorAny) :
    (isSupported c = false →
        SetTextColor l c = (some invalidColorSpecMsg, l) ∧
        SetBackgroundColor l c = (some invalidColorSpecMsg, l)) ∧
    (isSupported c = true →
        (SetTextColor l c).1 = none ∧ (SetBackgroundColor l c).1 = none) := by
  cases c <;>
    simp [isSupported, SetTextColor, SetBackgroundColor, normTextColor,
      normBackColor]

/-- C2 witness: the rejected call on a concrete label and unsupported value,
and the accepted call on a concrete raw color. -/
theorem setColor_invalid_spec_no_op_witness :
    (SetTextColor sampleLabel (ColorAny.other 0) =
        (some invalidColorSpecMsg, sampleLabel) ∧
      SetBackgroundColor sampleLabel (ColorAny.other 0) =
        (some invalidColorSpecMsg, sampleLabel)) ∧
    ((SetTextColor sampleLabel (ColorAny.nrgba 1 2 3 4)).1 = none ∧
      (SetBackgroundColor sampleLabel (ColorAny.nrgba 1 2 3 4)).1 = none) :=
  ⟨(setColor_invalid_spec_no_op sampleLabel (ColorAny.other 0)).1 rfl,
   (setColor_invalid_spec_no_op sampleLabel (ColorAny.nrgba 1 2 3 4)).2 rfl⟩

/-- C3: for a color spec of one of the supported dynamic types,
`SetTextWithColor t c` stores `t` as the full text and makes the resolved
foreground color (under any theme) the `getColor`-resolution of the
normalized spec. -/
theorem SetTextWithColor_roundtrip (θ : String → GoColor) (l : ColorLabel)
    (t : String) (c : ColorAny) (h : isSupported c = true) :
    (SetTextWithColor l t c).fullText = t ∧
    getColor θ (SetTextWithColor l t c).fgColor =
      getColor θ ((normTextColor c).getD c) := by
  cases c <;>
    simp_all [isSupported, SetTextWithColor, SetTextColor, normTextColor]

/-- C3 witness: round trip at a concrete label, text and raw color, under a
concrete theme. -/
theorem SetTextWithColor_roundtrip_witness :
    isSupported (ColorAny.nrgba 1 2 3 4) = true ∧
    ((SetTextWithColor sampleLabel "hi" (ColorAny.nrgba 1 2 3 4)).fullText = "hi" ∧
      getColor (fun _ => GoColor.gray16 7)
          (SetTextWithColor sampleLabel "hi" (ColorAny.nrgba 1 2 3 4)).fgColor =
        getColor (fun _ => GoColor.gray16 7)
          ((normTextColor (ColorAny.nrgba 1 2 3 4)).getD (ColorAny.nrgba 1 2 3 4))) :=
  ⟨rfl, SetTextWithColor_roundtrip (fun _ => GoColor.gray16 7) sampleLabel "hi"
    (ColorAny.nrgba 1 2 3 4) rfl⟩

/-- C4: `SetTextWithColor` with an unsupported color spec still stores the
new text, leaves the foreground spec (and everything else, the refresh
counter included: no refresh happens) unchanged, and swallows the inner
`SetTextColor` error — the composite is not atomic on error. -/
theorem SetTextWithColor_swallows_error (l : ColorLabel) (txt : String)
    (tag : Nat) :
    SetTextWithColor l txt (ColorAny.other tag) = { l with fullText := txt } ∧
    (SetTextWithColor l txt (ColorAny.other tag)).fgColor = l.fgColor ∧
    (SetTextWithColor l txt (ColorAny.other tag)).refreshCount = l.refreshCount ∧
    (SetTextColor { l with fullText := txt } (ColorAny.other tag)).1 =
      some invalidColorSpecMsg := by
  simp [SetTextWithColor, SetTextColor, normTextColor]

/-- C5: the text scale a label stores is always positive: both the
constructor and `SetTextScale` clamp a non-positive argument to exactly 1
and store a positive argument as given, and every other operation keeps the
stored scale. -/
theorem textScale_positive_invariant (l : ColorLabel) (q : ℚ) :
    ((q ≤ 0 → (SetTextScale l q).textScale = 1) ∧
      (0 < q → (SetTextScale l q).textScale = q) ∧
      0 < (SetTextScale l q).textScale) ∧
    (∀ (s : String) (txt back : ColorAny) (l' : ColorLabel),
      NewColorLabel s txt back q = some l' →
        (q ≤ 0 → l'.textScale = 1) ∧ (0 < q → l'.textScale = q) ∧
        0 < l'.textScale) ∧
    (0 < l.textScale →
      ∀ (s : String) (c : ColorAny) (st : Option TextStyle) (b : Bool) (n : Nat),
        0 < (SetText l s).textScale ∧
        0 < (SetTextColor l c).2.textScale ∧
        0 < (SetBackgroundColor l c).2.textScale ∧
        0 < (SetTextStyle l st).textScale ∧
        0 < (SetTruncate l b).textScale ∧
        0 < (SetTextWithColor l s c).textScale ∧
        0 < (MouseUp l n).textScale) := by
  have hclamp : ∀ r : ℚ, r = (if q ≤ 0 then 1 else q) →
      (q ≤ 0 → r = 1) ∧ (0 < q → r = q) ∧ 0 < r := by
    intro r hr
    by_cases hq : q ≤ 0
    · rw [hr, if_pos hq]
      exact ⟨fun _ => rfl, fun h0 => absurd hq (not_le.mpr h0), one_pos⟩
    · rw [hr, if_neg hq]
      exact ⟨fun h0 => absurd h0 hq, fun _ => rfl, lt_of_not_le hq⟩
  refine ⟨hclamp _ rfl, ?_, ?_⟩
  · intro s txt back l' hl'
    rcases hb : normBackColor back with _ | b
    · rw [NewColorLabel, hb] at hl'
      simp at hl'
    rcases ht : normTextColor txt with _ | t
    · rw [NewColorLabel, hb, ht] at hl'
      simp at hl'
    rw [NewColorLabel, hb, ht] at hl'
    simp only [Option.bind_eq_bind, Option.some_bind, pure, Option.some.injEq] at hl'
    have : l'.textScale = (if q ≤ 0 then 1 else q) := by
      rw [← hl']
    exact hclamp _ this
  · intro hpos s c st b n
    have hfg : (SetTextColor l c).2.textScale = l.textScale := by
      rw [SetTextColor]
      rcases normTextColor c with _ | t <;> simp
    have hbg : (SetBackgroundColor l c).2.textScale = l.textScale := by
      rw [SetBackgroundColor]
      rcases normBackColor c with _ | t <;> simp
    have hwc : (SetTextWithColor l s c).textScale = l.textScale := by
      rw [SetTextWithColor, SetTextColor]
      rcases normTextColor c with _ | t <;> simp
    refine ⟨hpos, ?_, ?_, hpos, hpos, ?_, hpos⟩
    · rw [hfg]; exact hpos
    · rw [hbg]; exact hpos
    · rw [hwc]; exact hpos

/-- C5 witness: clamping at the concrete non-positive scale `-1` and at the
positive scale `2`, on a concrete label. -/
theorem textScale_positive_invariant_witness :
    (SetTextScale sampleLabel (-1)).textScale = 1 ∧
    (SetTextScale sampleLabel 2).textScale = 2 :=
  ⟨((textScale_positive_invariant sampleLabel (-1)).1.1 (by norm_num)),
   ((textScale_positive_invariant sampleLabel 2).1.2.1 (by norm_num))⟩

/-- C6: `getColor` is total (a plain function, no error value): a `string`
or `fyne.ThemeColorName` resolves through the current theme, a raw
`NRGBA`/`Alpha16`/`Gray16` value is returned unchanged, and any other
dynamic type resolves to fully transparent. -/
theorem getColor_total (θ : String → GoColor) :
    (∀ s, getColor θ (ColorAny.str s) = θ s) ∧
    (∀ s, getColor θ (ColorAny.themeName s) = θ s) ∧
    (∀ r g b a, getColor θ (ColorAny.nrgba r g b a) = GoColor.nrgba r g b a) ∧
    (∀ a, getColor θ (ColorAny.alpha16 a) = GoColor.alpha16 a) ∧
    (∀ y, getColor θ (ColorAny.gray16 y) = GoColor.gray16 y) ∧
    (∀ tag, getColor θ (ColorAny.other tag) = transparentColor) :=
  ⟨fun _ => rfl, fun _ => rfl, fun _ _ _ _ => rfl, fun _ => rfl, fun _ => rfl,
   fun _ => rfl⟩

/-- C7: `NewColorLabel` returns `nil` exactly when the text or background
color spec has an unsupported dynamic type, and otherwise returns a fully
initialized label (given text, normalized color specs, clamped scale, zero
style, truncation off). -/
theorem NewColorLabel_validation (s : String) (txt back : ColorAny) (q : ℚ) :
    ((isSupported txt = false ∨ isSupported back = false) →
      NewColorLabel s txt back q = none) ∧
    (isSupported txt = true → isSupported back = true →
      ∃ l, NewColorLabel s txt back q = some l ∧
        l.fullText = s ∧
        normTextColor txt = some l.fgColor ∧
        normBackColor back = some l.bgColor ∧
        l.textScale = (if q ≤ 0 then 1 else q) ∧
        l.textStyle = {} ∧ l.truncate = false ∧
        l.lastKeyModifier = 0 ∧ l.refreshCount = 0) := by
  constructor
  · intro hbad
    rcases hbad with hbad | hbad
    · have : normTextColor txt = none := by
        have := normTextColor_isSome txt
        rw [hbad] at this
        exact Option.not_isSome_iff_eq_none.mp (by rw [this]; simp)
      rw [NewColorLabel, this]
      rcases normBackColor back with _ | b <;> simp
    · have : normBackColor back = none := by
        have := normBackColor_isSome back
        rw [hbad] at this
        exact Option.not_isSome_iff_eq_none.mp (by rw [this]; simp)
      rw [NewColorLabel, this]
      simp
  · intro htxt hback
    have ht : (normTextColor txt).isSome := by rw [normTextColor_isSome, htxt]
    have hb : (normBackColor back).isSome := by rw [normBackColor_isSome, hback]
    rcases Option.isSome_iff_exists.mp ht with ⟨t, ht'⟩
    rcases Option.isSome_iff_exists.mp hb with ⟨b, hb'⟩
    refine ⟨{ fullText := s, bgColor := b, fgColor := t,
              textScale := if q ≤ 0 then 1 else q, textStyle := {},
              truncate := false, lastKeyModifier := 0, refreshCount := 0 },
            ?_, rfl, ?_, ?_, rfl, rfl, rfl, rfl, rfl⟩
    · rw [NewColorLabel, ht', hb']
      rfl
    · rw [ht']
    · rw [hb']

/-- C7 witness: the constructor rejects a concrete unsupported background
spec, and accepts a concrete pair of supported specs. -/
theorem NewColorLabel_validation_witness :
    NewColorLabel "x" (ColorAny.nrgba 1 2 3 4) (ColorAny.other 0) 1 = none ∧
    (∃ l, NewColorLabel "x" (ColorAny.nrgba 1 2 3 4) (ColorAny.gray16 5) 1 = some l ∧
      l.fullText = "x" ∧
      normTextColor (ColorAny.nrgba 1 2 3 4) = some l.fgColor ∧
      normBackColor (ColorAny.gray16 5) = some l.bgColor ∧
      l.textScale = (if (1 : ℚ) ≤ 0 then 1 else 1) ∧
      l.textStyle = {} ∧ l.truncate = false ∧
      l.lastKeyModifier = 0 ∧ l.refreshCount = 0) :=
  ⟨(NewColorLabel_validation "x" (ColorAny.nrgba 1 2 3 4) (ColorAny.other 0) 1).1
      (Or.inr rfl),
   (NewColorLabel_validation "x" (ColorAny.nrgba 1 2 3 4) (ColorAny.gray16 5) 1).2
      rfl rfl⟩

/-- C9: an empty `string` color name is normalized, not rejected: the
setters succeed, storing the theme foreground name as the foreground spec
and `color.Transparent` as the background spec, and the constructor stores
the same defaults. -/
theorem emptyName_normalized (l : ColorLabel) (s : String) (c : ColorAny)
    (q : ℚ) :
    (SetTextColor l (ColorAny.str "")).1 = none ∧
    (SetTextColor l (ColorAny.str "")).2.fgColor = ColorAny.themeName "foreground" ∧
    (SetBackgroundColor l (ColorAny.str "")).1 = none ∧
    (SetBackgroundColor l (ColorAny.str "")).2.bgColor = ColorAny.alpha16 0 ∧
    (∀ l', NewColorLabel s (ColorAny.str "") c q = some l' →
      l'.fgColor = ColorAny.themeName "foreground") ∧
    (∀ l', NewColorLabel s c (ColorAny.str "") q = some l' →
      l'.bgColor = ColorAny.alpha16 0) := by
  refine ⟨rfl, rfl, rfl, rfl, ?_, ?_⟩
  · intro l' hl'
    rw [NewColorLabel] at hl'
    rcases hb : normBackColor c with _ | b <;> rw [hb] at hl'
    · simp at hl'
    · simp only [Option.bind_eq_bind, Option.some_bind, normTextColor,
        pure, Option.some.injEq] at hl'
      subst hl'
      simp
  · intro l' hl'
    rw [NewColorLabel] at hl'
    simp only [normBackColor, Option.bind_eq_bind, Option.some_bind] at hl'
    rcases ht : normTextColor c with _ | t <;> rw [ht] at hl'
    · simp at hl'
    · simp only [Option.some_bind, pure, Option.some.injEq] at hl'
      subst hl'
      simp

/-- C10: a `fyne.ThemeColorName` holding the empty string does not match
the `c == ""` test of the Go multi-type switch case (the comparison also
compares dynamic types), so it is stored as-is by the setters and the
constructor, not replaced by a default. -/
theorem emptyThemeName_stored_as_is (l : ColorLabel) (s : String) (q : ℚ) :
    (SetTextColor l (ColorAny.themeName "")).1 = none ∧
    (SetTextColor l (ColorAny.themeName "")).2.fgColor = ColorAny.themeName "" ∧
    (SetBackgroundColor l (ColorAny.themeName "")).1 = none ∧
    (SetBackgroundColor l (ColorAny.themeName "")).2.bgColor =
      ColorAny.themeName "" ∧
    (∀ l', NewColorLabel s (ColorAny.themeName "") (ColorAny.themeName "") q =
        some l' →
      l'.fgColor = ColorAny.themeName "" ∧ l'.bgColor = ColorAny.themeName "") := by
  refine ⟨rfl, rfl, rfl, rfl, ?_⟩
  intro l' hl'
  rw [NewColorLabel] at hl'
  simp only [normBackColor, normTextColor, Option.bind_eq_bind, Option.some_bind,
    pure, Option.some.injEq] at hl'
  rw [← hl']
  exact ⟨rfl, rfl⟩

end Colorlabel
